import Mathlib

/-!
Verification development for the PopConn repository.

The Python code under study (`popconn/stats/comparator.py`,
`popconn/stats/group_comparison.py`, `popconn/core/matrix.py`,
`popconn/utils/checks.py`) works on pandas DataFrames.  A DataFrame is
embedded here as a `Frame`: a list of row labels (`index`), a list of
column labels (`cols`), and rows given as ordered association lists from
column names to cells.  This mirrors the label-based access pattern of
pandas (`df[col]`, `df.drop(columns=...)`, `merge(on=...)`) directly.

Cells model the scalar values a DataFrame can hold in this code base:
strings, rational numbers (Python floats are modelled by ℚ), the float
NaN, and `rdiv n d` standing for the exact real number n / √d (needed
because Pearson correlations are irrational in general; it is produced
only by the correlation routines, and only when the value is not
rational).

Modelling notes, applying throughout:
- numpy PCG64 random streams are modelled by a 64-bit LCG driving a
  Fisher-Yates-equivalent draw; no claim below depends on the specific
  bit stream, only on the generator being deterministic, seeded once and
  advanced across calls, and on each draw being a rearrangement.
- numpy comparisons on non-numeric cells and pandas subtraction of
  string cells are modelled as False / NaN; the claims only exercise
  numeric statistics.
- numpy broadcasting between distinct shapes is modelled as an error;
  the claims only exercise shape-stable statistic functions, for which
  no broadcasting occurs.
-/

attribute [local semireducible] Rat.add Rat.mul Rat.sub Rat.inv Rat.ofScientific

inductive Cell where
  | str : String → Cell
  | num : ℚ → Cell
  | rdiv : ℚ → ℚ → Cell
  | nan : Cell
deriving DecidableEq

/-- A DataFrame row: ordered association list from column names to cells. -/
abbrev Row := List (String × Cell)

structure Frame where
  index : List String
  cols : List String
  rows : List Row
deriving DecidableEq

def Cell.isNan : Cell → Bool
  | .nan => true
  | _ => false

def Cell.isStr : Cell → Bool
  | .str _ => true
  | _ => false

/-- Scalar equality as pandas `==` computes it: NaN compares unequal to
everything, including itself. -/
def cellEq (a b : Cell) : Bool :=
  !a.isNan && !b.isNan && decide (a = b)

/-- Value of the (first) entry of a row under a column name; NaN when the
column is absent (pandas would raise a KeyError for a genuinely missing
column, a case no claim exercises). -/
def rowGet (r : Row) (c : String) : Cell :=
  ((r.find? (fun p => p.1 = c)).map Prod.snd).getD Cell.nan

/-- `df[c]`: the column named `c`, as a list of cells. -/
def Frame.column (f : Frame) (c : String) : List Cell :=
  f.rows.map (fun r => rowGet r c)

/-- Generic first-occurrence deduplication, as `pandas.unique` and
`DataFrame.drop_duplicates` perform it (pandas treats NaN as equal to NaN
for this purpose, matching structural equality on `Cell`). -/
def dedupKeepFirst {α : Type} [DecidableEq α] : List α → List α → List α
  | [], _ => []
  | x :: rest, seen =>
      if x ∈ seen then dedupKeepFirst rest seen
      else x :: dedupKeepFirst rest (x :: seen)

/-- `data[group_col].unique()`: distinct values in order of first appearance. -/
def pdUnique (l : List Cell) : List Cell := dedupKeepFirst l []

/-- `data[data[c] == v]`: boolean-mask row filter; kept rows retain their
index labels. -/
def Frame.filterEq (f : Frame) (c : String) (v : Cell) : Frame :=
  let kept := f.rows.enum.filter (fun p => cellEq (rowGet p.2 c) v)
  { index := kept.map (fun p => f.index.getD p.1 ""),
    cols := f.cols,
    rows := kept.map (fun p => p.2) }

/-- `data[[c1, c2, ...]]`: column projection. -/
def Frame.select (f : Frame) (cs : List String) : Frame :=
  { index := f.index,
    cols := cs,
    rows := f.rows.map (fun r => cs.map (fun c => (c, rowGet r c))) }

/-- `data.drop(columns=[c])`. -/
def Frame.dropCol (f : Frame) (c : String) : Frame :=
  { index := f.index,
    cols := f.cols.filter (fun x => x ≠ c),
    rows := f.rows.map (fun r => r.filter (fun p => p.1 ≠ c)) }

/-- Positions-and-rows used by `drop_duplicates`: keep the first occurrence
of every row value, remembering its original position. -/
def dedupRowsAux : List Row → Nat → List Row → List (Nat × Row)
  | [], _, _ => []
  | r :: rest, i, seen =>
      if r ∈ seen then dedupRowsAux rest (i + 1) seen
      else (i, r) :: dedupRowsAux rest (i + 1) (r :: seen)

/-- `df.drop_duplicates()`: duplicate rows removed, first occurrences kept
with their index labels. -/
def Frame.dropDuplicates (f : Frame) : Frame :=
  let kept := dedupRowsAux f.rows 0 []
  { index := kept.map (fun p => f.index.getD p.1 ""),
    cols := f.cols,
    rows := kept.map (fun p => p.2) }

/-- `df[c] = vs`: column assignment by position.  Every entry named `c`
is overwritten with the value for its row (column names are unique in all
frames this code builds). -/
def Frame.setColumn (f : Frame) (c : String) (vs : List Cell) : Frame :=
  { f with
    rows := (f.rows.zip vs).map (fun p =>
      p.1.map (fun q => if q.1 = c then (c, p.2) else q)) }

/-- `left.merge(right, on=c)`: inner join.  For each left row, in order,
all matching right rows contribute a joined row (left columns, then the
right columns minus the join key).  pandas resets the result index to a
range index. -/
def Frame.merge (left right : Frame) (key : String) : Frame :=
  let mergedRows := left.rows.flatMap (fun r1 =>
    (right.rows.filter (fun r2 => cellEq (rowGet r1 key) (rowGet r2 key))).map
      (fun r2 => r1 ++ r2.filter (fun p => p.1 ≠ key)))
  { index := (List.range mergedRows.length).map (fun n => toString n),
    cols := left.cols ++ right.cols.filter (fun x => x ≠ key),
    rows := mergedRows }

/-- `df.values`: the cells of a frame as a positional matrix. -/
def Frame.values (f : Frame) : List (List Cell) :=
  f.rows.map (fun r => r.map (fun p => p.2))

/-- Shape of a positional matrix: row count and the length of every row
(numpy arrays are rectangular; raggedness never arises after `np.stack`
has accepted its input). -/
def shape2 (m : List (List Cell)) : Nat × List Nat :=
  (m.length, m.map (fun r => r.length))

/-- Positional access into a stacked matrix, NaN out of range. -/
def cellAt (m : List (List Cell)) (i j : Nat) : Cell :=
  (m.getD i []).getD j Cell.nan

/-- `np.abs(a) >= np.abs(b)` on scalars: False whenever either side is
NaN (IEEE semantics) or non-numeric. -/
def cellAbsGe (a b : Cell) : Bool :=
  match a, b with
  | .num x, .num y => decide (|y| ≤ |x|)
  | _, _ => false

def emptyFrame : Frame := { index := [], cols := [], rows := [] }

/-!  Random generator model (`np.random.default_rng`, `rng.permutation`). -/

/-- 64-bit linear congruential step standing in for the PCG64 stream. -/
def lcg (s : Nat) : Nat :=
  (s * 6364136223846793005 + 1442695040888963407) % (2 ^ 64)

structure RNG where
  state : Nat
deriving DecidableEq

/-- Draw a number below `n` and advance the generator. -/
def RNG.randBelow (r : RNG) (n : Nat) : Nat × RNG :=
  let s := lcg r.state
  (s % n, ⟨s⟩)

/-- Fisher-Yates-equivalent draw: repeatedly pick a remaining position and
emit its element.  The fuel argument equals the list length at the top
call and only serves termination. -/
def permuteFuel : Nat → List Cell → RNG → List Cell × RNG
  | 0, _, r => ([], r)
  | _, [], r => ([], r)
  | fuel + 1, l, r =>
      let (j, r1) := r.randBelow l.length
      let (tail, r2) := permuteFuel fuel (l.eraseIdx j) r1
      (l.getD j Cell.nan :: tail, r2)

/-- `rng.permutation(values)`: a permuted copy of the list, advancing the
generator. -/
def rngPermutation (l : List Cell) (r : RNG) : List Cell × RNG :=
  permuteFuel l.length l r

/-!  Error taxonomy.  The Python code only ever raises `ValueError`; each
constructor below names one concrete raise site (or, for
`invalidParameterError`, a spec-taxonomy error that has no raise site in
the code at all). -/

inductive PopConnError where
  /-- `ValueError("Only two-group comparisons are supported.")` raised in
  `GroupComparator.__init__`; the GroupCountError of the spec taxonomy. -/
  | groupCountError
  /-- Modelled from the spec: the `InvalidParameterError` of the spec
  taxonomy (section 7).  No raise site for it exists anywhere in the
  code. -/
  | invalidParameterError
  /-- `ValueError("need at least one array to stack")` raised by
  `np.stack` on an empty sequence. -/
  | stackEmptyError
  /-- `ValueError` raised by `np.stack` on arrays of unequal shapes. -/
  | stackShapeError
  /-- numpy shape mismatch in the element-wise comparison (broadcasting
  between distinct shapes is modelled as an error; see the header). -/
  | broadcastError
  /-- `ValueError` raised by `pd.DataFrame(arr, index=..., columns=...)`
  when the array shape disagrees with the given labels. -/
  | frameConstructionError
deriving DecidableEq

/-- `np.stack(list_of_arrays)`: fails on an empty list or on shape
disagreement, otherwise returns the stack (the list itself here). -/
def npStack (ms : List (List (List Cell))) :
    Except PopConnError (List (List Cell) × List (List (List Cell))) :=
  match ms with
  | [] => .error .stackEmptyError
  | m :: rest =>
      if rest.all (fun x => decide (shape2 x = shape2 m)) then
        .ok (m, rest)
      else .error .stackShapeError

def boolToQ (b : Bool) : ℚ := if b then 1 else 0

/-- `np.mean(np.abs(null_diffs) >= np.abs(observed), axis=0)`: the mean
over the stack of the element-wise boolean comparison. -/
def npAbsGeMean (first : List (List Cell)) (rest : List (List (List Cell)))
    (obs : List (List Cell)) : Except PopConnError (List (List Cell)) :=
  if shape2 first = shape2 obs then
    .ok ((List.range obs.length).map (fun i =>
      (List.range ((obs.getD i []).length)).map (fun j =>
        Cell.num ((((first :: rest).map (fun d =>
          boolToQ (cellAbsGe (cellAt d i j) (cellAt obs i j)))).sum)
          / ((first :: rest).length : ℚ)))))
  else .error .broadcastError

/-- `pd.DataFrame(vals, index=index, columns=cols)`. -/
def pdDataFrame (vals : List (List Cell)) (index cols : List String) :
    Except PopConnError Frame :=
  if vals.length = index.length ∧ ∀ r ∈ vals, r.length = cols.length then
    .ok { index := index, cols := cols,
          rows := vals.map (fun r => cols.zip r) }
  else .error .frameConstructionError

/-!  `GroupComparator` (`popconn/stats/comparator.py`). -/

structure GroupComparator where
  data : Frame
  groupCol : String
  /-- Stored by `__init__` but never read anywhere in the class. -/
  longFormat : Bool
  subjectCol : String
  /-- Stored by `__init__` but never read anywhere in the class. -/
  regionCol : String
  /-- Stored by `__init__` but never read anywhere in the class. -/
  valueCol : String
  groupLabels : Cell × Cell
  group1Data : Frame
  group2Data : Frame
deriving DecidableEq

/-- `GroupComparator.__init__`: finds the distinct group values and fails
unless there are exactly two, then stores the two row subsets.  The
failure happens during construction, before any statistic function is
even supplied. -/
def GroupComparator.init (data : Frame) (groupCol : String)
    (longFormat : Bool) (subjectCol regionCol valueCol : String) :
    Except PopConnError GroupComparator :=
  match pdUnique (data.column groupCol) with
  | [g1, g2] =>
      .ok { data := data, groupCol := groupCol, longFormat := longFormat,
            subjectCol := subjectCol, regionCol := regionCol,
            valueCol := valueCol, groupLabels := (g1, g2),
            group1Data := data.filterEq groupCol g1,
            group2Data := data.filterEq groupCol g2 }
  | _ => .error .groupCountError

/-- `GroupComparator._permutation_subject_labels`: deduplicate the
(subject, group) pairs, then overwrite the group column with a random
permutation of its own values. -/
def GroupComparator.permutation_subject_labels (c : GroupComparator)
    (rng : RNG) : Frame × RNG :=
  let subjectLabels := (c.data.select [c.subjectCol, c.groupCol]).dropDuplicates
  let (vs, rng1) := rngPermutation (subjectLabels.column c.groupCol) rng
  (subjectLabels.setColumn c.groupCol vs, rng1)

/-- `GroupComparator._get_shuffled_data`: drop the group column from the
full data and inner-merge the permuted subject labels back on the subject
column. -/
def GroupComparator.get_shuffled_data (c : GroupComparator)
    (permuted : Frame) : Frame :=
  (c.data.dropCol c.groupCol).merge permuted c.subjectCol

/-- `GroupComparator._compute_permutation_diff`: split the shuffled data
by the stored group labels and evaluate the statistic, returning its
`.values`. -/
def GroupComparator.compute_permutation_diff (c : GroupComparator)
    (statFn : Frame → Frame → Frame) (shuffled : Frame) : List (List Cell) :=
  let g1 := shuffled.filterEq c.groupCol c.groupLabels.1
  let g2 := shuffled.filterEq c.groupCol c.groupLabels.2
  (statFn g1 g2).values

/-- The permutation loop of `run_permutation_test` (step 3): one shared
generator is threaded through the iterations; null statistics and
permuted labelings are collected in iteration order. -/
def GroupComparator.permLoop (c : GroupComparator)
    (statFn : Frame → Frame → Frame) :
    Nat → RNG → List (List (List Cell)) × List Frame × RNG
  | 0, r => ([], [], r)
  | n + 1, r =>
      let (permuted, r1) := c.permutation_subject_labels r
      let shuffled := c.get_shuffled_data permuted
      let nullDiff := c.compute_permutation_diff statFn shuffled
      let (ds, ls, r2) := c.permLoop statFn n r1
      (nullDiff :: ds, permuted :: ls, r2)

structure RunResults where
  observed : Frame
  pValues : Frame
  nullDistributions : Option (List (List (List Cell)))
  permutationLabels : List Frame
deriving DecidableEq

/-- `GroupComparator.run_permutation_test`.  `randomState` models
`np.random.default_rng(random_state)`: for an integer `random_state` it
is that seed; for `None` it stands for the state the generator is given
from operating-system entropy. -/
def GroupComparator.run_permutation_test (c : GroupComparator)
    (statFn : Frame → Frame → Frame) (nPermutations : Nat)
    (returnDistribution : Bool) (randomState : Nat) :
    Except PopConnError RunResults :=
  let rng : RNG := ⟨randomState⟩
  let observed := statFn c.group1Data c.group2Data
  let parts := c.permLoop statFn nPermutations rng
  match npStack parts.1 with
  | .error e => .error e
  | .ok (first, rest) =>
      match npAbsGeMean first rest observed.values with
      | .error e => .error e
      | .ok pvals =>
          match pdDataFrame pvals observed.index observed.cols with
          | .error e => .error e
          | .ok pframe =>
              .ok { observed := observed, pValues := pframe,
                    nullDistributions :=
                      if returnDistribution then some (first :: rest) else none,
                    permutationLabels := parts.2.1 }

/-- The sequence of permuted labelings obtained by iterating the
engine from a given generator state (used to state that the run draws
from one monotonically advanced stream). -/
def GroupComparator.rngIterate (c : GroupComparator) :
    Nat → RNG → List Frame
  | 0, _ => []
  | n + 1, r =>
      let (p, r1) := c.permutation_subject_labels r
      p :: c.rngIterate n r1

/-!  `compute_population_covariance` (`popconn/core/matrix.py`):
`df.corr(method=method)`.  `CovConn.compute_covariance`
(`popconn/core/core.py`) delegates to this function unchanged.

pandas `DataFrame.corr` computes, over the numeric columns only, a
pairwise-complete correlation for every ordered pair of columns; an
entry whose denominator is zero (fewer than two complete observations,
or a zero-variance column) is NaN rather than an error.  Correlation
values are irrational in general; an entry with value n / √d is stored
as `Cell.num` exactly when the root is rational and as `Cell.rdiv n d`
otherwise. -/

def Cell.qval? : Cell → Option ℚ
  | .num q => some q
  | _ => none

/-- Exact rational square root, when one exists. -/
def ratSqrt? (q : ℚ) : Option ℚ :=
  if q < 0 then none
  else
    let ns := Nat.sqrt q.num.natAbs
    let ds := Nat.sqrt q.den
    if ns * ns = q.num.natAbs ∧ ds * ds = q.den then
      some ((ns : ℚ) / (ds : ℚ))
    else none

/-- The correlation cell with exact value `num / √den2`, NaN when
`den2 = 0` (the 0/0 of the correlation formula, which floats turn into
NaN, covering both the fewer-than-two-observations case and the
zero-variance case). -/
def corrCell (num den2 : ℚ) : Cell :=
  if den2 = 0 then Cell.nan
  else
    match ratSqrt? den2 with
    | some s => Cell.num (num / s)
    | none => Cell.rdiv num den2

/-- Pearson correlation of a list of paired observations:
r = (nΣxy - ΣxΣy) / √((nΣx² - (Σx)²) (nΣy² - (Σy)²)). -/
def pearsonCell (ps : List (ℚ × ℚ)) : Cell :=
  let n : ℚ := ps.length
  let sx := (ps.map (fun p => p.1)).sum
  let sy := (ps.map (fun p => p.2)).sum
  let sxx := (ps.map (fun p => p.1 * p.1)).sum
  let syy := (ps.map (fun p => p.2 * p.2)).sum
  let sxy := (ps.map (fun p => p.1 * p.2)).sum
  corrCell (n * sxy - sx * sy) ((n * sxx - sx * sx) * (n * syy - sy * sy))

/-- Average (midrank) of a value within a list, as rank-based methods
assign it. -/
def avgRank (l : List ℚ) (x : ℚ) : ℚ :=
  (l.countP (fun y => decide (y < x)) : ℚ)
    + ((l.countP (fun y => decide (y = x)) : ℚ) + 1) / 2

/-- Spearman correlation: Pearson correlation of the midranks. -/
def spearmanCell (ps : List (ℚ × ℚ)) : Cell :=
  let xs := ps.map (fun p => p.1)
  let ys := ps.map (fun p => p.2)
  pearsonCell ((xs.map (avgRank xs)).zip (ys.map (avgRank ys)))

def qSgn (x : ℚ) : ℚ := if x < 0 then -1 else if x = 0 then 0 else 1

/-- All unordered pairs of elements of a list. -/
def listPairs {α : Type} : List α → List (α × α)
  | [] => []
  | x :: xs => xs.map (fun y => (x, y)) ++ listPairs xs

/-- Kendall tau-b: (concordant - discordant) / √((n0 - n1)(n0 - n2)). -/
def kendallCell (ps : List (ℚ × ℚ)) : Cell :=
  let prs := listPairs ps
  let num := (prs.map (fun pq =>
    qSgn (pq.1.1 - pq.2.1) * qSgn (pq.1.2 - pq.2.2))).sum
  let n0 : ℚ := prs.length
  let n1 : ℚ := prs.countP (fun pq => decide (pq.1.1 = pq.2.1))
  let n2 : ℚ := prs.countP (fun pq => decide (pq.1.2 = pq.2.2))
  corrCell num ((n0 - n1) * (n0 - n2))

inductive CorrMethod where
  | pearson
  | spearman
  | kendall
deriving DecidableEq

def methodCell (method : CorrMethod) (ps : List (ℚ × ℚ)) : Cell :=
  match method with
  | .pearson => pearsonCell ps
  | .spearman => spearmanCell ps
  | .kendall => kendallCell ps

/-- The columns `df.corr` operates on: those with no string cell
(numeric dtype; pandas silently restricts the computation to numeric
columns). -/
def Frame.numericCols (f : Frame) : List String :=
  f.cols.filter (fun c => (f.column c).all (fun x => !x.isStr))

/-- The pairwise-complete observations of two columns: rows in which
both cells hold a rational number. -/
def pairObs (f : Frame) (c1 c2 : String) : List (ℚ × ℚ) :=
  f.rows.filterMap (fun r =>
    match (rowGet r c1).qval?, (rowGet r c2).qval? with
    | some x, some y => some (x, y)
    | _, _ => none)

/-- `compute_population_covariance(df, method) = df.corr(method=method)`:
the region-by-region correlation matrix over the numeric columns. -/
def compute_population_covariance (df : Frame) (method : CorrMethod) : Frame :=
  let ncols := df.numericCols
  { index := ncols,
    cols := ncols,
    rows := ncols.map (fun c1 =>
      ncols.map (fun c2 => (c2, methodCell method (pairObs df c1 c2)))) }

/-!  `correlation_matrix_difference` (`popconn/stats/metrics.py`) and
`compare_groups` (`popconn/stats/group_comparison.py`). -/

/-- Sorted, de-duplicated union of label lists, as pandas index
alignment produces when the two sides differ. -/
def sortedUnion (l1 l2 : List String) : List String :=
  (dedupKeepFirst (l1 ++ l2) []).mergeSort (fun a b => decide (a ≤ b))

/-- Cell of a frame at a row label and column name; NaN when absent.
Duplicate labels are resolved to the first occurrence (no claim
exercises duplicate labels). -/
def Frame.at (f : Frame) (i c : String) : Cell :=
  match f.index.findIdx? (fun x => x = i) with
  | some k => rowGet (f.rows.getD k []) c
  | none => Cell.nan

/-- Scalar subtraction as pandas alignment applies it: NaN unless both
sides are rational numbers. -/
def cellSub (a b : Cell) : Cell :=
  match a, b with
  | .num x, .num y => .num (x - y)
  | _, _ => .nan

/-- `mat1 - mat2`: index- and column-aligned subtraction.  Equal labels
are kept as they are; differing labels are aligned to the sorted union,
with NaN where a side is missing. -/
def frameSub (f1 f2 : Frame) : Frame :=
  let idx := if f1.index = f2.index then f1.index
             else sortedUnion f1.index f2.index
  let cs := if f1.cols = f2.cols then f1.cols
            else sortedUnion f1.cols f2.cols
  { index := idx,
    cols := cs,
    rows := idx.map (fun i =>
      cs.map (fun c => (c, cellSub (f1.at i c) (f2.at i c)))) }

/-- `correlation_matrix_difference(mat1, mat2) = mat1 - mat2`. -/
def correlation_matrix_difference (mat1 mat2 : Frame) : Frame :=
  frameSub mat1 mat2

/-- `compare_groups` (`popconn/stats/group_comparison.py`): builds a
`GroupComparator` and runs the permutation test with
`correlation_matrix_difference` as the statistic.  Its `method` argument
is accepted but appears nowhere in the body; `random_state` is not
forwarded either, so the runner uses `np.random.default_rng(None)`,
modelled by the explicit `entropy` argument (the state the unseeded
generator receives from the operating system). -/
def compare_groups (data : Frame) (groupCol : String) (method : CorrMethod)
    (nPermutations : Nat) (returnDistribution : Bool) (longFormat : Bool)
    (subjectCol regionCol valueCol : String) (entropy : Nat) :
    Except PopConnError RunResults :=
  match GroupComparator.init data groupCol longFormat subjectCol
      regionCol valueCol with
  | .error e => .error e
  | .ok comparator =>
      comparator.run_permutation_test correlation_matrix_difference
        nPermutations returnDistribution entropy

/-!  Concrete fixtures used by witnesses and counterexamples. -/

/-- A wide-format dataset: six subjects, two region columns, two groups
of three subjects each. -/
def sampleData : Frame :=
  { index := ["0", "1", "2", "3", "4", "5"],
    cols := ["subject_id", "group", "A", "B"],
    rows := [
      [("subject_id", .str "s1"), ("group", .str "young"),
        ("A", .num 1), ("B", .num 2)],
      [("subject_id", .str "s2"), ("group", .str "young"),
        ("A", .num 2), ("B", .num 3)],
      [("subject_id", .str "s3"), ("group", .str "young"),
        ("A", .num 4), ("B", .num 1)],
      [("subject_id", .str "s4"), ("group", .str "old"),
        ("A", .num 3), ("B", .num 5)],
      [("subject_id", .str "s5"), ("group", .str "old"),
        ("A", .num 5), ("B", .num 4)],
      [("subject_id", .str "s6"), ("group", .str "old"),
        ("A", .num 2), ("B", .num 2)]] }

def defaultComparator : GroupComparator :=
  { data := emptyFrame, groupCol := "", longFormat := false,
    subjectCol := "", regionCol := "", valueCol := "",
    groupLabels := (Cell.nan, Cell.nan),
    group1Data := emptyFrame, group2Data := emptyFrame }

def sampleComparator : GroupComparator :=
  (GroupComparator.init sampleData "group" false "subject_id" "region"
    "value").toOption.getD defaultComparator

/-- A statistic function that can tell raw row subsets from covariance
matrices: it returns the 1x1 matrix holding the total row count of its
two arguments.  On the raw six-row dataset the two groups hold six rows
together; the two 2x2 covariance matrices hold four. -/
def statCount (a b : Frame) : Frame :=
  { index := ["count"], cols := ["count"],
    rows := [[("count", Cell.num ((a.rows.length : ℚ) + (b.rows.length : ℚ)))]] }

/-- A dataset whose group column holds three distinct values. -/
def threeGroupData : Frame :=
  { index := ["0", "1", "2"],
    cols := ["subject_id", "group", "A"],
    rows := [
      [("subject_id", .str "s1"), ("group", .str "young"), ("A", .num 1)],
      [("subject_id", .str "s2"), ("group", .str "old"), ("A", .num 2)],
      [("subject_id", .str "s3"), ("group", .str "middle"), ("A", .num 3)]] }

/-- A subject-by-region table with a single subject. -/
def oneSubjectTable : Frame :=
  { index := ["s1"],
    cols := ["A", "B"],
    rows := [[("A", .num 1), ("B", .num 2)]] }

def defaultRunResults : RunResults :=
  { observed := emptyFrame, pValues := emptyFrame,
    nullDistributions := none, permutationLabels := [] }

instance exceptDecEq {ε α : Type} [DecidableEq ε] [DecidableEq α] :
    DecidableEq (Except ε α) := fun x y =>
  match x, y with
  | .ok a, .ok b =>
      if h : a = b then .isTrue (by rw [h])
      else .isFalse (fun hh => h (by cases hh; rfl))
  | .error a, .error b =>
      if h : a = b then .isTrue (by rw [h])
      else .isFalse (fun hh => h (by cases hh; rfl))
  | .ok _, .error _ => .isFalse (fun hh => Except.noConfusion hh)
  | .error _, .ok _ => .isFalse (fun hh => Except.noConfusion hh)

/-!  Helper definitions used in claim statements. -/

/-- The first row of `rows` whose `keyCol` entry pandas-equals `v`. -/
def lookupRow (rows : List Row) (keyCol : String) (v : Cell) : Row :=
  (rows.find? (fun x => cellEq v (rowGet x keyCol))).getD []

/-- The group label the permuted labeling frame assigns to subject `v`. -/
def subjectLabelIn (permuted : Frame) (subjectCol groupCol : String)
    (v : Cell) : Cell :=
  rowGet (lookupRow permuted.rows subjectCol v) groupCol

/-- The element-wise empirical p-value matrix exactly as the specification
words it: at each position, the count of permutations whose null statistic
is at least as large in absolute value as the observed statistic, divided
by the permutation count. -/
def pValuesClaim (nulls : List (List (List Cell))) (obs : List (List Cell))
    (n : Nat) : List (List Cell) :=
  (List.range obs.length).map (fun i =>
    (List.range ((obs.getD i []).length)).map (fun j =>
      Cell.num ((nulls.countP
        (fun d => cellAbsGe (cellAt d i j) (cellAt obs i j)) : ℚ) / (n : ℚ))))

/-- Every cell of the matrix is a rational number in [0, 1]. -/
def allEntriesInUnit (m : List (List Cell)) : Bool :=
  m.all (fun r => r.all (fun x =>
    match x with
    | Cell.num q => decide (0 ≤ q ∧ q ≤ 1)
    | _ => false))

/-- Every cell of the frame is NaN. -/
def allCellsNan (f : Frame) : Bool :=
  f.rows.all (fun r => r.all (fun p => p.2.isNan))

/-!  Named results of concrete runs, used by witnesses below. -/

def c1Res : RunResults :=
  (sampleComparator.run_permutation_test statCount 1 false 42).toOption.getD
    defaultRunResults

def c2Res : RunResults :=
  (sampleComparator.run_permutation_test statCount 2 true 42).toOption.getD
    defaultRunResults

def c3Res : RunResults :=
  (sampleComparator.run_permutation_test statCount 3 true 7).toOption.getD
    defaultRunResults

def c6Res : RunResults :=
  (sampleComparator.run_permutation_test statCount 4 false 11).toOption.getD
    defaultRunResults

/-!  Generic lemmas about the helper functions. -/

theorem dedupKeepFirst_mem {α : Type} [DecidableEq α] (l seen : List α)
    (x : α) : x ∈ dedupKeepFirst l seen ↔ x ∈ l ∧ x ∉ seen := by
  induction l generalizing seen with
  | nil => simp [dedupKeepFirst]
  | cons y rest ih =>
      simp only [dedupKeepFirst]
      by_cases hy : y ∈ seen
      · rw [if_pos hy, ih]
        constructor
        · rintro ⟨hx, hs⟩
          exact ⟨List.mem_cons_of_mem _ hx, hs⟩
        · rintro ⟨hx, hs⟩
          cases List.mem_cons.mp hx with
          | inl h => exact absurd (h ▸ hy) hs
          | inr h => exact ⟨h, hs⟩
      · rw [if_neg hy]
        constructor
        · intro hm
          cases List.mem_cons.mp hm with
          | inl h =>
              subst h
              exact ⟨List.mem_cons_self _ _, hy⟩
          | inr h =>
              rcases (ih (y :: seen)).mp h with ⟨hx, hs⟩
              exact ⟨List.mem_cons_of_mem _ hx,
                fun hc => hs (List.mem_cons_of_mem _ hc)⟩
        · rintro ⟨hx, hs⟩
          cases List.mem_cons.mp hx with
          | inl h =>
              subst h
              exact List.mem_cons_self _ _
          | inr h =>
              by_cases hxy : x = y
              · subst hxy
                exact List.mem_cons_self _ _
              · refine List.mem_cons_of_mem _ ((ih (y :: seen)).mpr ⟨h, ?_⟩)
                intro hc
                cases List.mem_cons.mp hc with
                | inl hh => exact hxy hh
                | inr hh => exact hs hh

theorem dedupKeepFirst_nodup {α : Type} [DecidableEq α] (l seen : List α) :
    (dedupKeepFirst l seen).Nodup := by
  induction l generalizing seen with
  | nil => simp [dedupKeepFirst]
  | cons y rest ih =>
      simp only [dedupKeepFirst]
      by_cases hy : y ∈ seen
      · rw [if_pos hy]
        exact ih seen
      · rw [if_neg hy]
        refine List.nodup_cons.mpr ⟨?_, ih (y :: seen)⟩
        intro hc
        rcases (dedupKeepFirst_mem rest (y :: seen) y).mp hc with ⟨_, hns⟩
        exact hns (List.mem_cons_self y seen)

theorem dedupRowsAux_snd (l : List Row) (i : Nat) (seen : List Row) :
    (dedupRowsAux l i seen).map (fun p => p.2) = dedupKeepFirst l seen := by
  induction l generalizing i seen with
  | nil => simp [dedupRowsAux, dedupKeepFirst]
  | cons r rest ih =>
      by_cases hr : r ∈ seen
      · simp [dedupRowsAux, dedupKeepFirst, if_pos hr, ih]
      · simp [dedupRowsAux, dedupKeepFirst, if_neg hr, ih]

theorem dropDuplicates_rows (f : Frame) :
    f.dropDuplicates.rows = dedupKeepFirst f.rows [] := by
  simp [Frame.dropDuplicates, dedupRowsAux_snd]

theorem boolToQ_sum_eq_countP {α : Type} (l : List α) (p : α → Bool) :
    (l.map (fun x => boolToQ (p x))).sum = (l.countP p : ℚ) := by
  induction l with
  | nil => simp [List.countP_nil]
  | cons x rest ih =>
      rw [List.map_cons, List.sum_cons, ih, List.countP_cons]
      by_cases hx : p x = true
      · simp only [hx, if_pos, boolToQ]
        push_cast
        ring
      · simp [hx, boolToQ]

theorem perm_getD_eraseIdx (l : List Cell) (j : Nat) (h : j < l.length) :
    l.Perm (l.getD j Cell.nan :: l.eraseIdx j) := by
  induction l generalizing j with
  | nil => simp at h
  | cons a as ih =>
      cases j with
      | zero => simp [List.getD]
      | succ n =>
          have hn : n < as.length := by simpa using h
          show (a :: as).Perm (as.getD n Cell.nan :: a :: as.eraseIdx n)
          exact (List.Perm.cons a (ih n hn)).trans (List.Perm.swap _ _ _)

theorem permuteFuel_perm (fuel : Nat) (l : List Cell) (r : RNG)
    (h : l.length ≤ fuel) : (permuteFuel fuel l r).1.Perm l := by
  induction fuel generalizing l r with
  | zero =>
      have hl : l = [] := List.length_eq_zero.mp (Nat.le_zero.mp h)
      subst hl
      simp [permuteFuel]
  | succ fl ih =>
      cases l with
      | nil => simp [permuteFuel]
      | cons a as =>
          rcases hrb : r.randBelow (a :: as).length with ⟨j, r1⟩
          have hj : j < (a :: as).length := by
            have h1 : (r.randBelow (a :: as).length).1 < (a :: as).length :=
              Nat.mod_lt _ (Nat.succ_pos _)
            rw [hrb] at h1
            exact h1
          have hlen : ((a :: as).eraseIdx j).length ≤ fl := by
            rw [List.length_eraseIdx]
            simp only [hj, if_pos]
            simp only [List.length_cons] at h ⊢
            omega
          rcases hpf : permuteFuel fl ((a :: as).eraseIdx j) r1 with ⟨tail, r2⟩
          have htail : tail.Perm ((a :: as).eraseIdx j) := by
            have h2 := ih ((a :: as).eraseIdx j) r1 hlen
            rw [hpf] at h2
            exact h2
          simp only [permuteFuel, hrb, hpf]
          exact (List.Perm.cons _ htail).trans (perm_getD_eraseIdx _ _ hj).symm

theorem rngPermutation_perm (l : List Cell) (r : RNG) :
    (rngPermutation l r).1.Perm l :=
  permuteFuel_perm l.length l r (Nat.le_refl _)

theorem rngPermutation_length (l : List Cell) (r : RNG) :
    (rngPermutation l r).1.length = l.length :=
  (rngPermutation_perm l r).length_eq

theorem find?_key_cons (p : String × Cell) (rest : Row) (c : String) :
    (p :: rest).find? (fun q => q.1 = c) =
      if p.1 = c then some p else rest.find? (fun q => q.1 = c) := by
  by_cases hp : p.1 = c
  · rw [if_pos hp]
    exact List.find?_cons_of_pos _ (by simp [hp])
  · rw [if_neg hp]
    exact List.find?_cons_of_neg _ (by simp [hp])

theorem rowGet_cons (p : String × Cell) (rest : Row) (c : String) :
    rowGet (p :: rest) c = if p.1 = c then p.2 else rowGet rest c := by
  rw [rowGet, find?_key_cons]
  by_cases hp : p.1 = c
  · simp [hp]
  · simp [hp, rowGet]

theorem rowGet_filter_ne (r : Row) (c d : String) (h : c ≠ d) :
    rowGet (r.filter (fun p => p.1 ≠ d)) c = rowGet r c := by
  induction r with
  | nil => rfl
  | cons p rest ih =>
      rw [List.filter_cons]
      by_cases hp : p.1 = d
      · have hd : (decide (p.1 ≠ d)) = false := by simp [hp]
        rw [hd]
        simp only [Bool.false_eq_true, if_neg, ite_false]
        rw [rowGet_cons, if_neg (by rw [hp]; exact fun hh => h hh.symm)]
        exact ih
      · have hd : (decide (p.1 ≠ d)) = true := by simp [hp]
        rw [hd]
        simp only [if_pos, ite_true]
        rw [rowGet_cons, rowGet_cons]
        by_cases hpc : p.1 = c
        · rw [if_pos hpc, if_pos hpc]
        · rw [if_neg hpc, if_neg hpc]
          exact ih

theorem rowGet_append (a b : Row) (c : String) :
    rowGet (a ++ b) c =
      if (a.find? (fun q => q.1 = c)).isSome then rowGet a c
      else rowGet b c := by
  induction a with
  | nil => simp [rowGet]
  | cons p rest ih =>
      rw [List.cons_append, rowGet_cons, rowGet_cons, find?_key_cons]
      by_cases hp : p.1 = c
      · simp [hp]
      · simp only [hp, if_neg, ite_false, if_false]
        exact ih

theorem rowGet_append_of_ne_nan (a b : Row) (c : String)
    (h : rowGet a c ≠ Cell.nan) :
    rowGet (a ++ b) c = rowGet a c := by
  rw [rowGet_append]
  cases hf : a.find? (fun q => q.1 = c) with
  | none =>
      exfalso
      apply h
      simp [rowGet, hf]
  | some p => simp

theorem rowGet_append_of_none (a b : Row) (c : String)
    (h : a.find? (fun q => q.1 = c) = none) :
    rowGet (a ++ b) c = rowGet b c := by
  rw [rowGet_append, h]
  simp

theorem find?_key_filter_self (r : Row) (d : String) :
    (r.filter (fun p => p.1 ≠ d)).find? (fun q => q.1 = d) = none := by
  rw [List.find?_eq_none]
  intro x hx
  have h2 := (List.mem_filter.mp hx).2
  simp only [decide_eq_true_eq] at h2 ⊢
  exact h2

theorem rowGet_map_setCol_ne (r : Row) (g c : String) (v : Cell) (h : c ≠ g) :
    rowGet (r.map (fun q => if q.1 = g then (g, v) else q)) c = rowGet r c := by
  induction r with
  | nil => rfl
  | cons p rest ih =>
      rw [List.map_cons]
      by_cases hp : p.1 = g
      · rw [if_pos hp, rowGet_cons, rowGet_cons]
        have h1 : ¬((g, v).1 = c) := fun hh => h hh.symm
        rw [if_neg h1, if_neg (by rw [hp]; exact fun hh => h hh.symm)]
        exact ih
      · rw [if_neg hp, rowGet_cons, rowGet_cons]
        by_cases hpc : p.1 = c
        · rw [if_pos hpc, if_pos hpc]
        · rw [if_neg hpc, if_neg hpc]
          exact ih

theorem map_rowGet_zip_set (g : String) (l : List Row) (vs : List Cell)
    (hlen : vs.length = l.length)
    (hall : ∀ x ∈ l, ∀ v : Cell,
      rowGet (x.map (fun q => if q.1 = g then (g, v) else q)) g = v) :
    ((l.zip vs).map (fun p =>
      p.1.map (fun q => if q.1 = g then (g, p.2) else q))).map
        (fun r => rowGet r g) = vs := by
  induction l generalizing vs with
  | nil =>
      cases vs with
      | nil => rfl
      | cons v vv => simp at hlen
  | cons x xs ih =>
      cases vs with
      | nil => simp at hlen
      | cons v vv =>
          simp only [List.zip_cons_cons, List.map_cons]
          congr 1
          · exact hall x (List.mem_cons_self _ _) v
          · exact ih vv (by simpa using hlen)
              (fun y hy v' => hall y (List.mem_cons_of_mem _ hy) v')

theorem map_rowGet_zip_preserve (g c : String) (l : List Row) (vs : List Cell)
    (hlen : vs.length = l.length) (h : c ≠ g) :
    ((l.zip vs).map (fun p =>
      p.1.map (fun q => if q.1 = g then (g, p.2) else q))).map
        (fun r => rowGet r c) = l.map (fun r => rowGet r c) := by
  induction l generalizing vs with
  | nil =>
      cases vs with
      | nil => rfl
      | cons v vv => simp at hlen
  | cons x xs ih =>
      cases vs with
      | nil => simp at hlen
      | cons v vv =>
          simp only [List.zip_cons_cons, List.map_cons]
          congr 1
          · exact rowGet_map_setCol_ne x g c v h
          · exact ih vv (by simpa using hlen)

theorem npStack_ok_elim {ms : List (List (List Cell))}
    {first : List (List Cell)} {rest : List (List (List Cell))}
    (h : npStack ms = .ok (first, rest)) :
    ms = first :: rest ∧ ∀ x ∈ rest, shape2 x = shape2 first := by
  cases ms with
  | nil => simp [npStack] at h
  | cons m tl =>
      simp only [npStack] at h
      split at h
      · rename_i hall
        injection h with h1
        injection h1 with h2 h3
        subst h2
        subst h3
        refine ⟨rfl, fun x hx => ?_⟩
        have h4 := List.all_eq_true.mp hall x hx
        simpa using h4
      · exact absurd h (by simp)

theorem npAbsGeMean_ok_elim {first : List (List Cell)}
    {rest : List (List (List Cell))} {obs pvals : List (List Cell)}
    (h : npAbsGeMean first rest obs = .ok pvals) :
    shape2 first = shape2 obs ∧
    pvals = (List.range obs.length).map (fun i =>
      (List.range ((obs.getD i []).length)).map (fun j =>
        Cell.num ((((first :: rest).map (fun d =>
          boolToQ (cellAbsGe (cellAt d i j) (cellAt obs i j)))).sum)
          / ((first :: rest).length : ℚ)))) := by
  simp only [npAbsGeMean] at h
  split at h
  · rename_i hsh
    injection h with h1
    exact ⟨hsh, h1.symm⟩
  · exact absurd h (by simp)

theorem pdDataFrame_ok_elim {vals : List (List Cell)}
    {index cols : List String} {fr : Frame}
    (h : pdDataFrame vals index cols = .ok fr) :
    vals.length = index.length ∧ (∀ r ∈ vals, r.length = cols.length) ∧
    fr = { index := index, cols := cols,
           rows := vals.map (fun r => cols.zip r) } := by
  simp only [pdDataFrame] at h
  split at h
  · rename_i hc
    injection h with h1
    exact ⟨hc.1, hc.2, h1.symm⟩
  · exact absurd h (by simp)

theorem values_of_zip_rows (vals : List (List Cell)) (idx cols : List String)
    (h : ∀ r ∈ vals, r.length = cols.length) :
    Frame.values { index := idx, cols := cols,
                   rows := vals.map (fun r => cols.zip r) } = vals := by
  simp only [Frame.values, List.map_map]
  have h2 : ∀ r ∈ vals, ((fun r => (cols.zip r).map (fun p => p.2)) ∘ fun r => r) r = r := by
    intro r hr
    simpa using List.map_snd_zip cols r (le_of_eq (h r hr))
  calc vals.map (fun r => (cols.zip r).map (fun p => p.2))
      = vals.map (fun r => r) := List.map_congr_left (by simpa using h2)
    _ = vals := List.map_id' vals

theorem permLoop_fst_length (c : GroupComparator)
    (f : Frame → Frame → Frame) (n : Nat) (r : RNG) :
    (c.permLoop f n r).1.length = n := by
  induction n generalizing r with
  | zero => rfl
  | succ m ih =>
      rcases hps : c.permutation_subject_labels r with ⟨p, r1⟩
      have h2 := ih r1
      rcases hpl : c.permLoop f m r1 with ⟨ds, ls, r2⟩
      rw [hpl] at h2
      simp only [GroupComparator.permLoop, hps, hpl]
      simpa using h2

theorem permLoop_labels_eq_rngIterate (c : GroupComparator)
    (f : Frame → Frame → Frame) (n : Nat) (r : RNG) :
    (c.permLoop f n r).2.1 = c.rngIterate n r := by
  induction n generalizing r with
  | zero => rfl
  | succ m ih =>
      rcases hps : c.permutation_subject_labels r with ⟨p, r1⟩
      have h2 := ih r1
      rcases hpl : c.permLoop f m r1 with ⟨ds, ls, r2⟩
      rw [hpl] at h2
      simp only [GroupComparator.permLoop, GroupComparator.rngIterate, hps, hpl]
      simpa using h2

/-- Structure of a successful `run_permutation_test`: names every
intermediate the run produced. -/
theorem run_ok_elim (c : GroupComparator) (f : Frame → Frame → Frame)
    (n : Nat) (rd : Bool) (seed : Nat) (res : RunResults)
    (h : c.run_permutation_test f n rd seed = .ok res) :
    ∃ first rest pvals,
      (c.permLoop f n ⟨seed⟩).1 = first :: rest ∧
      (∀ x ∈ rest, shape2 x = shape2 first) ∧
      npAbsGeMean first rest (f c.group1Data c.group2Data).values = .ok pvals ∧
      pdDataFrame pvals (f c.group1Data c.group2Data).index
        (f c.group1Data c.group2Data).cols = .ok res.pValues ∧
      res.observed = f c.group1Data c.group2Data ∧
      res.nullDistributions = (if rd then some (first :: rest) else none) ∧
      res.permutationLabels = (c.permLoop f n ⟨seed⟩).2.1 := by
  unfold GroupComparator.run_permutation_test at h
  dsimp only at h
  cases hs : npStack (c.permLoop f n ⟨seed⟩).1 with
  | error e =>
      rw [hs] at h
      exact absurd h (by simp)
  | ok pr =>
      rcases pr with ⟨first, rest⟩
      rw [hs] at h
      dsimp only at h
      cases ha : npAbsGeMean first rest (f c.group1Data c.group2Data).values with
      | error e =>
          rw [ha] at h
          exact absurd h (by simp)
      | ok pvals =>
          rw [ha] at h
          dsimp only at h
          cases hd : pdDataFrame pvals (f c.group1Data c.group2Data).index
              (f c.group1Data c.group2Data).cols with
          | error e =>
              rw [hd] at h
              exact absurd h (by simp)
          | ok pframe =>
              rw [hd] at h
              dsimp only at h
              injection h with h1
              obtain ⟨h2, h3⟩ := npStack_ok_elim hs
              refine ⟨first, rest, pvals, h2, h3, ha, ?_, ?_, ?_, ?_⟩
              · rw [← h1]
                exact hd
              · rw [← h1]
              · rw [← h1]
              · rw [← h1]

theorem getD_range_map {β : Type} (f : Nat → β) (d : β) (n i : Nat)
    (h : i < n) : ((List.range n).map f).getD i d = f i := by
  have h1 : i < ((List.range n).map f).length := by simpa using h
  rw [List.getD_eq_getElem _ _ h1]
  simp

theorem range_getD_map {α β : Type} (d : α) (F : α → β) (l : List α) :
    (List.range l.length).map (fun i => F (l.getD i d)) = l.map F := by
  apply List.ext_getElem
  · simp
  · intro i h1 h2
    have h3 : i < l.length := by simpa using h2
    simp only [List.getElem_map, List.getElem_range]
    rw [List.getD_eq_getElem _ _ h3]

theorem shape2_doubleRange (obs : List (List Cell)) (g : Nat → Nat → Cell) :
    shape2 ((List.range obs.length).map (fun i =>
      (List.range ((obs.getD i []).length)).map (g i))) = shape2 obs := by
  simp only [shape2, List.length_map, List.length_range, List.map_map,
    Prod.mk.injEq, true_and]
  have h1 : (fun i => ((List.range ((obs.getD i []).length)).map (g i)).length)
      = fun i => (obs.getD i []).length := by
    funext i
    simp
  rw [show ((fun r => r.length) ∘ fun i =>
      (List.range ((obs.getD i []).length)).map (g i))
      = fun i => ((List.range ((obs.getD i []).length)).map (g i)).length
      from rfl, h1]
  exact range_getD_map [] (fun r => r.length) obs

/-!  Claim theorems. -/

/-- C1 (amended): on every successful run, the observed statistic returned
by `run_permutation_test` is the statistic function applied directly to
the raw, unpermuted group-1 and group-2 row subsets stored at
construction time; no covariance matrix is computed and no correlation
method is involved anywhere in the run.  It is computed once, before the
permutation loop, and is independent of the seed. -/
theorem c1_observed_from_raw_groups (c : GroupComparator)
    (f : Frame → Frame → Frame) (n : Nat) (rd : Bool) (seed : Nat)
    (res : RunResults) (h : c.run_permutation_test f n rd seed = .ok res) :
    res.observed = f c.group1Data c.group2Data := by
  obtain ⟨_, _, _, _, _, _, _, hobs, _, _⟩ := run_ok_elim c f n rd seed res h
  exact hobs

/-- Witness for C1 at a concrete run: one permutation over the six-subject
fixture. -/
theorem c1_observed_from_raw_groups_witness :
    c1Res.observed = statCount sampleComparator.group1Data
      sampleComparator.group2Data :=
  c1_observed_from_raw_groups sampleComparator statCount 1 false 42 c1Res
    (by decide)

/-- C1 counterexample: the claim as stated (observed equals the statistic
of the two groups' covariance matrices) is false on the code.  With a
statistic that reports the total row count of its two arguments, the run
returns 6 (the raw rows of the two three-subject groups) while the
claimed composition through `compute_population_covariance` gives 4 (the
rows of the two 2x2 covariance matrices). -/
theorem c1_counterexample :
    (sampleComparator.run_permutation_test statCount 1 false 42).map
        RunResults.observed ≠
      Except.ok (statCount
        (compute_population_covariance sampleComparator.group1Data .pearson)
        (compute_population_covariance sampleComparator.group2Data .pearson)) := by
  decide

/-- C7: running with permutation count 0 does fail, but not through any
parameter validation: the loop produces an empty null list and `np.stack`
raises its own ValueError.  The spec prescribes `InvalidParameterError`,
for which no raise site exists in the code. -/
theorem c7_zero_permutations_stack_error (c : GroupComparator)
    (f : Frame → Frame → Frame) (rd : Bool) (seed : Nat) :
    c.run_permutation_test f 0 rd seed =
      .error PopConnError.stackEmptyError := rfl

/-- C10: `compare_groups` ignores its `method` argument entirely: for any
two correlation methods and otherwise identical inputs (including the
entropy the unseeded generator receives), the returned observed
statistic, p-values and null distribution are the results of the same
computation. -/
theorem c10_method_never_used (data : Frame) (groupCol : String)
    (m1 m2 : CorrMethod) (n : Nat) (rd : Bool) (lf : Bool)
    (s r v : String) (entropy : Nat) :
    compare_groups data groupCol m1 n rd lf s r v entropy =
      compare_groups data groupCol m2 n rd lf s r v entropy := rfl

/-- C8: whenever the group column holds a number of distinct values other
than two (three or more included), the comparator constructor fails with
the two-group ValueError, before any statistic function is even
supplied. -/
theorem c8_group_count_error (data : Frame) (groupCol : String)
    (lf : Bool) (s r v : String)
    (h : (pdUnique (data.column groupCol)).length ≠ 2) :
    GroupComparator.init data groupCol lf s r v =
      .error PopConnError.groupCountError := by
  unfold GroupComparator.init
  rcases hu : pdUnique (data.column groupCol) with _ | ⟨a, _ | ⟨b, _ | ⟨c2, tl⟩⟩⟩
  · rfl
  · rfl
  · exact absurd (by simp [hu]) h
  · rfl

/-- Witness for C8: a dataset with three distinct group values. -/
theorem c8_group_count_error_witness :
    GroupComparator.init threeGroupData "group" false "subject_id"
      "region" "value" = .error PopConnError.groupCountError :=
  c8_group_count_error threeGroupData "group" false "subject_id" "region"
    "value" (by decide)

/-- C3: with a fixed seed and fixed inputs, any two results of
`run_permutation_test` coincide in observed statistic, p-values and null
distribution; moreover the sequence of permuted labelings is exactly the
one obtained by iterating the permutation engine on the single generator
created once from the seed and advanced across iterations. -/
theorem c3_deterministic (c : GroupComparator) (f : Frame → Frame → Frame)
    (n : Nat) (rd : Bool) (seed : Nat) (res1 res2 : RunResults)
    (h1 : c.run_permutation_test f n rd seed = .ok res1)
    (h2 : c.run_permutation_test f n rd seed = .ok res2) :
    res1.observed = res2.observed ∧ res1.pValues = res2.pValues ∧
    res1.nullDistributions = res2.nullDistributions ∧
    res1.permutationLabels = c.rngIterate n ⟨seed⟩ := by
  have he : res1 = res2 := by
    have h3 := h1.symm.trans h2
    injection h3
  obtain ⟨_, _, _, _, _, _, _, _, _, hlab⟩ := run_ok_elim c f n rd seed res1 h1
  subst he
  refine ⟨rfl, rfl, rfl, ?_⟩
  rw [hlab]
  exact permLoop_labels_eq_rngIterate c f n ⟨seed⟩

/-- Witness for C3 at a concrete seeded run. -/
theorem c3_deterministic_witness :
    c3Res.observed = c3Res.observed ∧ c3Res.pValues = c3Res.pValues ∧
    c3Res.nullDistributions = c3Res.nullDistributions ∧
    c3Res.permutationLabels = sampleComparator.rngIterate 3 ⟨7⟩ :=
  c3_deterministic sampleComparator statCount 3 true 7 c3Res c3Res
    (by decide) (by decide)

/-- C6: on every successful run, the returned p-value frame carries
exactly the row labels, column labels and shape of the observed
statistic; a 1x1 observed statistic yields a 1x1 p-value frame, never a
broadcast to the region-by-region shape. -/
theorem c6_pvalues_shape (c : GroupComparator) (f : Frame → Frame → Frame)
    (n : Nat) (rd : Bool) (seed : Nat) (res : RunResults)
    (h : c.run_permutation_test f n rd seed = .ok res) :
    res.pValues.index = res.observed.index ∧
    res.pValues.cols = res.observed.cols ∧
    shape2 res.pValues.values = shape2 res.observed.values := by
  obtain ⟨first, rest, pvals, hparts, hsh, ha, hd, hobs, hnd, hlab⟩ :=
    run_ok_elim c f n rd seed res h
  obtain ⟨hlen, hrows, hfr⟩ := pdDataFrame_ok_elim hd
  obtain ⟨hsh2, hpv⟩ := npAbsGeMean_ok_elim ha
  have hvals : res.pValues.values = pvals := by
    rw [hfr]
    exact values_of_zip_rows pvals _ _ hrows
  refine ⟨?_, ?_, ?_⟩
  · rw [hfr, hobs]
  · rw [hfr, hobs]
  · rw [hvals, hpv, hobs]
    exact shape2_doubleRange _ _

/-- Witness for C6: a run whose statistic returns a 1x1 frame. -/
theorem c6_pvalues_shape_witness :
    c6Res.pValues.index = c6Res.observed.index ∧
    c6Res.pValues.cols = c6Res.observed.cols ∧
    shape2 c6Res.pValues.values = shape2 c6Res.observed.values :=
  c6_pvalues_shape sampleComparator statCount 4 false 11 c6Res (by decide)

/-- C2: on every successful run with n permutations, the null stack holds
exactly one entry per permutation, every p-value entry equals the count
of permutations whose null statistic is at least as large in absolute
value as the observed one at that position divided by the permutation
count, every entry lies in [0, 1], and with the distribution retained the
returned null distribution is exactly that stack. -/
theorem c2_pvalues_empirical (c : GroupComparator)
    (f : Frame → Frame → Frame) (n : Nat) (rd : Bool) (seed : Nat)
    (res : RunResults)
    (h : c.run_permutation_test f n rd seed = .ok res) :
    (c.permLoop f n ⟨seed⟩).1.length = n ∧
    res.pValues.values =
      pValuesClaim (c.permLoop f n ⟨seed⟩).1 res.observed.values n ∧
    allEntriesInUnit res.pValues.values = true ∧
    (rd = true → res.nullDistributions = some (c.permLoop f n ⟨seed⟩).1) := by
  obtain ⟨first, rest, pvals, hparts, hsh, ha, hd, hobs, hnd2, hlab⟩ :=
    run_ok_elim c f n rd seed res h
  set nulls := (c.permLoop f n ⟨seed⟩).1 with hnullsdef
  have hnulls : nulls = first :: rest := hparts
  have hlen : nulls.length = n := by
    rw [hnullsdef]
    exact permLoop_fst_length c f n ⟨seed⟩
  have hn_pos : 0 < n := by
    rw [← hlen, hnulls]
    exact Nat.succ_pos _
  obtain ⟨hlenp, hrows, hfr⟩ := pdDataFrame_ok_elim hd
  obtain ⟨hsh2, hpv⟩ := npAbsGeMean_ok_elim ha
  have hvals : res.pValues.values = pvals := by
    rw [hfr]
    exact values_of_zip_rows pvals _ _ hrows
  have hmain : res.pValues.values = pValuesClaim nulls res.observed.values n := by
    rw [hvals, hpv, hobs]
    unfold pValuesClaim
    apply List.map_congr_left
    intro i _
    apply List.map_congr_left
    intro j _
    rw [boolToQ_sum_eq_countP, ← hnulls, hlen]
  refine ⟨hlen, hmain, ?_, ?_⟩
  case refine_2 =>
    intro hrd
    rw [hnd2, hrd, hnulls]
    simp
  rw [hmain]
  unfold allEntriesInUnit pValuesClaim
  rw [List.all_eq_true]
  intro r hr
  rw [List.mem_map] at hr
  obtain ⟨i, hi, rfl⟩ := hr
  rw [List.all_eq_true]
  intro x hx
  rw [List.mem_map] at hx
  obtain ⟨j, hj, rfl⟩ := hx
  dsimp only
  rw [decide_eq_true_eq]
  refine ⟨div_nonneg (Nat.cast_nonneg _) (Nat.cast_nonneg _), ?_⟩
  rw [div_le_one (by exact_mod_cast hn_pos)]
  have hlenq : (nulls.length : ℚ) = (n : ℚ) := by exact_mod_cast hlen
  rw [← hlenq]
  exact_mod_cast List.countP_le_length _

/-- Witness for C2 at a concrete two-permutation run retaining the
distribution. -/
theorem c2_pvalues_empirical_witness :
    (sampleComparator.permLoop statCount 2 ⟨42⟩).1.length = 2 ∧
    c2Res.pValues.values =
      pValuesClaim (sampleComparator.permLoop statCount 2 ⟨42⟩).1
        c2Res.observed.values 2 ∧
    allEntriesInUnit c2Res.pValues.values = true ∧
    (true = true → c2Res.nullDistributions =
      some (sampleComparator.permLoop statCount 2 ⟨42⟩).1) :=
  c2_pvalues_empirical sampleComparator statCount 2 true 42 c2Res
    (by decide)

theorem methodCell_nil (method : CorrMethod) : methodCell method [] = Cell.nan := by
  cases method <;> decide

theorem avgRank_single (x : ℚ) : avgRank [x] x = 1 := by
  unfold avgRank
  simp [List.countP_cons, List.countP_nil, lt_irrefl]

theorem pearsonCell_single (x y : ℚ) : pearsonCell [(x, y)] = Cell.nan := by
  unfold pearsonCell
  simp only [List.length_cons, List.length_nil, List.map_cons, List.map_nil,
    List.sum_cons, List.sum_nil, Nat.cast_one, Nat.zero_add]
  rw [show ((1 : ℚ) * (x * x + 0) - (x + 0) * (x + 0)) *
      ((1 : ℚ) * (y * y + 0) - (y + 0) * (y + 0)) = 0 by ring]
  simp [corrCell]

theorem spearmanCell_single (x y : ℚ) : spearmanCell [(x, y)] = Cell.nan := by
  unfold spearmanCell
  simp only [List.map_cons, List.map_nil, List.zip_cons_cons, List.zip_nil_right]
  rw [avgRank_single, avgRank_single]
  exact pearsonCell_single 1 1

theorem kendallCell_single (x y : ℚ) : kendallCell [(x, y)] = Cell.nan := by
  unfold kendallCell
  simp [listPairs, corrCell]

theorem methodCell_single (method : CorrMethod) (q : ℚ × ℚ) :
    methodCell method [q] = Cell.nan := by
  obtain ⟨x, y⟩ := q
  cases method
  · exact pearsonCell_single x y
  · exact spearmanCell_single x y
  · exact kendallCell_single x y

/-- C9 (amended): on a table with fewer than two subjects,
`compute_population_covariance` does not fail; it returns the
region-by-region matrix with every entry NaN (the denominator of every
correlation formula is zero and floats turn the resulting 0/0 into NaN),
for every correlation method. -/
theorem c9_nan_matrix_when_few_subjects (df : Frame) (method : CorrMethod)
    (h : df.rows.length < 2) :
    allCellsNan (compute_population_covariance df method) = true := by
  unfold allCellsNan compute_population_covariance
  rw [List.all_eq_true]
  intro r hr
  rw [List.mem_map] at hr
  obtain ⟨c1, hc1, rfl⟩ := hr
  rw [List.all_eq_true]
  intro p hp
  rw [List.mem_map] at hp
  obtain ⟨c2, hc2, rfl⟩ := hp
  dsimp only
  have hps : (pairObs df c1 c2).length ≤ 1 := by
    have h1 : (pairObs df c1 c2).length ≤ df.rows.length :=
      List.length_filterMap_le _ _
    omega
  rcases hlist : pairObs df c1 c2 with _ | ⟨q, tl⟩
  · rw [methodCell_nil]
    rfl
  · have htl : tl = [] := by
      rw [hlist] at hps
      simp only [List.length_cons] at hps
      have h2 : tl.length = 0 := by omega
      exact List.length_eq_zero.mp h2
    subst htl
    rw [methodCell_single]
    rfl

/-- Witness for C9: the one-subject two-region table. -/
theorem c9_nan_matrix_witness :
    allCellsNan (compute_population_covariance oneSubjectTable
      CorrMethod.pearson) = true :=
  c9_nan_matrix_when_few_subjects oneSubjectTable CorrMethod.pearson
    (by decide)

/-- C9 counterexample: the claim as stated (the computation fails with
InsufficientDataError rather than returning a result) is false on the
code: on a one-subject table the function returns a 2x2 all-NaN matrix.
In the embedding its type has no error channel at all, because
`df.corr` has no raise path for small inputs. -/
theorem c9_counterexample :
    compute_population_covariance oneSubjectTable CorrMethod.pearson =
      { index := ["A", "B"], cols := ["A", "B"],
        rows := [[("A", Cell.nan), ("B", Cell.nan)],
                 [("A", Cell.nan), ("B", Cell.nan)]] } := by
  decide

theorem permutation_subject_labels_fst (c : GroupComparator) (rng : RNG) :
    (c.permutation_subject_labels rng).1 =
      ((c.data.select [c.subjectCol, c.groupCol]).dropDuplicates).setColumn
        c.groupCol
        (rngPermutation
          (((c.data.select [c.subjectCol, c.groupCol]).dropDuplicates).column
            c.groupCol) rng).1 := by
  unfold GroupComparator.permutation_subject_labels
  rcases h : rngPermutation
      (((c.data.select [c.subjectCol, c.groupCol]).dropDuplicates).column
        c.groupCol) rng with ⟨vs, r1⟩
  simp [h]

theorem select_two_rows_structure (c : GroupComparator) (x : Row)
    (hx : x ∈ ((c.data.select [c.subjectCol, c.groupCol]).dropDuplicates).rows) :
    ∃ rr ∈ c.data.rows,
      x = [(c.subjectCol, rowGet rr c.subjectCol),
           (c.groupCol, rowGet rr c.groupCol)] := by
  rw [dropDuplicates_rows] at hx
  have hx2 := ((dedupKeepFirst_mem _ [] x).mp hx).1
  simp only [Frame.select] at hx2
  obtain ⟨rr, hrr, rfl⟩ := List.mem_map.mp hx2
  exact ⟨rr, hrr, rfl⟩

theorem rowGet_structured_set (s g : String) (a b v : Cell) (hsg : s ≠ g) :
    rowGet ([(s, a), (g, b)].map
      (fun q => if q.1 = g then (g, v) else q)) g = v := by
  simp [rowGet_cons, hsg]

/-- C4: the permuted subject-to-label frame assigns to the same subject
column a permutation of the observed label multiset: its group column is
a rearrangement of the deduplicated observed group column, and its
subject column is unchanged, so the count of each of the two labels over
the subjects is preserved. -/
theorem c4_labels_multiset_preserved (c : GroupComparator) (rng : RNG)
    (hsg : c.subjectCol ≠ c.groupCol) :
    ((c.permutation_subject_labels rng).1.column c.groupCol).Perm
      (((c.data.select [c.subjectCol, c.groupCol]).dropDuplicates).column
        c.groupCol) ∧
    (c.permutation_subject_labels rng).1.column c.subjectCol =
      ((c.data.select [c.subjectCol, c.groupCol]).dropDuplicates).column
        c.subjectCol := by
  rw [permutation_subject_labels_fst]
  rcases hperm : rngPermutation
      (((c.data.select [c.subjectCol, c.groupCol]).dropDuplicates).column
        c.groupCol) rng with ⟨vs, rng1⟩
  have hvs_perm : vs.Perm
      (((c.data.select [c.subjectCol, c.groupCol]).dropDuplicates).column
        c.groupCol) := by
    have h1 := rngPermutation_perm
      (((c.data.select [c.subjectCol, c.groupCol]).dropDuplicates).column
        c.groupCol) rng
    rw [hperm] at h1
    exact h1
  have hvs_len : vs.length =
      ((c.data.select [c.subjectCol, c.groupCol]).dropDuplicates).rows.length := by
    rw [hvs_perm.length_eq]
    simp [Frame.column]
  constructor
  · have hcol : (((c.data.select [c.subjectCol, c.groupCol]).dropDuplicates).setColumn
        c.groupCol vs).column c.groupCol = vs := by
      simp only [Frame.column, Frame.setColumn]
      apply map_rowGet_zip_set c.groupCol _ vs hvs_len
      intro x hx v
      obtain ⟨rr, _, rfl⟩ := select_two_rows_structure c x hx
      exact rowGet_structured_set c.subjectCol c.groupCol _ _ v hsg
    rw [hcol]
    exact hvs_perm
  · have hcol2 : (((c.data.select [c.subjectCol, c.groupCol]).dropDuplicates).setColumn
        c.groupCol vs).column c.subjectCol =
        ((c.data.select [c.subjectCol, c.groupCol]).dropDuplicates).column
          c.subjectCol := by
      simp only [Frame.column, Frame.setColumn]
      exact map_rowGet_zip_preserve c.groupCol c.subjectCol _ vs hvs_len hsg
    rw [hcol2]

/-- Witness for C4 at the six-subject fixture and a concrete generator
state. -/
theorem c4_labels_multiset_preserved_witness :
    ((sampleComparator.permutation_subject_labels ⟨5⟩).1.column
        sampleComparator.groupCol).Perm
      (((sampleComparator.data.select [sampleComparator.subjectCol,
        sampleComparator.groupCol]).dropDuplicates).column
        sampleComparator.groupCol) ∧
    (sampleComparator.permutation_subject_labels ⟨5⟩).1.column
        sampleComparator.subjectCol =
      ((sampleComparator.data.select [sampleComparator.subjectCol,
        sampleComparator.groupCol]).dropDuplicates).column
        sampleComparator.subjectCol :=
  c4_labels_multiset_preserved sampleComparator ⟨5⟩ (by decide)

theorem cellEq_true_iff (a b : Cell) :
    cellEq a b = true ↔ a ≠ Cell.nan ∧ b ≠ Cell.nan ∧ a = b := by
  unfold cellEq Cell.isNan
  cases a <;> cases b <;> simp

theorem rowGet_structured_fst (s g : String) (a b : Cell) :
    rowGet [(s, a), (g, b)] s = a := by
  simp [rowGet_cons]

theorem flatMap_map_assoc {α β γ : Type} (f : α → β) (F : β → List γ)
    (l : List α) : (l.map f).flatMap F = l.flatMap (fun x => F (f x)) := by
  induction l with
  | nil => rfl
  | cons x xs ih => simp [ih]

theorem flatMap_eq_map_of_singleton {α β : Type} (l : List α)
    (F : α → List β) (G : α → β) (h : ∀ x ∈ l, F x = [G x]) :
    l.flatMap F = l.map G := by
  induction l with
  | nil => rfl
  | cons x xs ih =>
      rw [List.flatMap_cons, h x (List.mem_cons_self _ _), List.map_cons,
        ih (fun y hy => h y (List.mem_cons_of_mem _ hy))]
      rfl

theorem filter_key_singleton (l : List Row) (keyCol : String) (v : Cell)
    (hv : v ≠ Cell.nan)
    (hnd : (l.map (fun x => rowGet x keyCol)).Nodup)
    (hmem : v ∈ l.map (fun x => rowGet x keyCol)) :
    ∃ y, l.filter (fun x => cellEq v (rowGet x keyCol)) = [y] ∧
      l.find? (fun x => cellEq v (rowGet x keyCol)) = some y ∧
      rowGet y keyCol = v := by
  induction l with
  | nil => simp at hmem
  | cons x0 rest ih =>
      simp only [List.map_cons, List.nodup_cons] at hnd
      by_cases hx : rowGet x0 keyCol = v
      · have hce : cellEq v (rowGet x0 keyCol) = true :=
          (cellEq_true_iff _ _).mpr ⟨hv, hx ▸ hv, hx.symm⟩
        have hrest : rest.filter (fun x => cellEq v (rowGet x keyCol)) = [] := by
          rw [List.filter_eq_nil_iff]
          intro a ha hca
          obtain ⟨_, _, hva⟩ := (cellEq_true_iff _ _).mp hca
          exact hnd.1 (hx ▸ hva ▸ List.mem_map_of_mem _ ha)
        refine ⟨x0, ?_, ?_, hx⟩
        · rw [List.filter_cons, if_pos hce, hrest]
        · exact List.find?_cons_of_pos _ hce
      · have hce : cellEq v (rowGet x0 keyCol) = false := by
          cases hb : cellEq v (rowGet x0 keyCol) with
          | false => rfl
          | true =>
              obtain ⟨_, _, hva⟩ := (cellEq_true_iff _ _).mp hb
              exact absurd hva.symm hx
        have hmem2 : v ∈ rest.map (fun x => rowGet x keyCol) := by
          rcases List.mem_cons.mp hmem with h1 | h1
          · exact absurd h1.symm hx
          · exact h1
        obtain ⟨y, hfil, hfind, hyv⟩ := ih hnd.2 hmem2
        refine ⟨y, ?_, ?_, hyv⟩
        · rw [List.filter_cons, if_neg (by simp [hce]), hfil]
        · rw [List.find?_cons_of_neg _ (by simp [hce]), hfind]

theorem sl_subjects_nodup (c : GroupComparator)
    (hdep : ∀ r1 ∈ c.data.rows, ∀ r2 ∈ c.data.rows,
      rowGet r1 c.subjectCol = rowGet r2 c.subjectCol →
      rowGet r1 c.groupCol = rowGet r2 c.groupCol) :
    (((c.data.select [c.subjectCol, c.groupCol]).dropDuplicates).rows.map
      (fun x => rowGet x c.subjectCol)).Nodup := by
  have hnd : ((c.data.select [c.subjectCol, c.groupCol]).dropDuplicates).rows.Nodup := by
    rw [dropDuplicates_rows]
    exact dedupKeepFirst_nodup _ _
  apply List.Nodup.map_on _ hnd
  intro x hx y hy hxy
  obtain ⟨r1, hr1, rfl⟩ := select_two_rows_structure c x hx
  obtain ⟨r2, hr2, rfl⟩ := select_two_rows_structure c y hy
  rw [rowGet_structured_fst, rowGet_structured_fst] at hxy
  rw [hxy, hdep r1 hr1 r2 hr2 hxy]

theorem select_row_mem_dedup (c : GroupComparator) (r : Row)
    (hr : r ∈ c.data.rows) :
    [(c.subjectCol, rowGet r c.subjectCol),
     (c.groupCol, rowGet r c.groupCol)] ∈
      ((c.data.select [c.subjectCol, c.groupCol]).dropDuplicates).rows := by
  rw [dropDuplicates_rows]
  rw [dedupKeepFirst_mem]
  refine ⟨?_, by simp⟩
  simp only [Frame.select]
  exact List.mem_map_of_mem _ hr

/-- C5: for data in which every subject carries exactly one group label
(and subject cells are not NaN), re-expanding a permuted subject-to-label
mapping across the rows preserves the row count, keeps every row attached
to its original subject, and gives all rows of one subject the same
permuted group label (the label the permuted mapping assigns to that
subject) - a subject's rows are never split across the two groups. -/
theorem c5_subject_rows_move_together (c : GroupComparator) (rng : RNG)
    (hsg : c.subjectCol ≠ c.groupCol)
    (hnan : ∀ r ∈ c.data.rows, rowGet r c.subjectCol ≠ Cell.nan)
    (hdep : ∀ r1 ∈ c.data.rows, ∀ r2 ∈ c.data.rows,
      rowGet r1 c.subjectCol = rowGet r2 c.subjectCol →
      rowGet r1 c.groupCol = rowGet r2 c.groupCol) :
    (c.get_shuffled_data (c.permutation_subject_labels rng).1).rows.length
        = c.data.rows.length ∧
    (c.get_shuffled_data (c.permutation_subject_labels rng).1).rows.map
        (fun m => rowGet m c.subjectCol)
      = c.data.rows.map (fun r => rowGet r c.subjectCol) ∧
    (c.get_shuffled_data (c.permutation_subject_labels rng).1).rows.map
        (fun m => rowGet m c.groupCol)
      = c.data.rows.map (fun r =>
          subjectLabelIn (c.permutation_subject_labels rng).1 c.subjectCol
            c.groupCol (rowGet r c.subjectCol)) := by
  have hP := permutation_subject_labels_fst c rng
  have hvslen : (rngPermutation
      (((c.data.select [c.subjectCol, c.groupCol]).dropDuplicates).column
        c.groupCol) rng).1.length =
      ((c.data.select [c.subjectCol, c.groupCol]).dropDuplicates).rows.length := by
    rw [(rngPermutation_perm _ _).length_eq]
    simp [Frame.column]
  have hsubjeq : (c.permutation_subject_labels rng).1.rows.map
      (fun x => rowGet x c.subjectCol) =
      ((c.data.select [c.subjectCol, c.groupCol]).dropDuplicates).rows.map
        (fun x => rowGet x c.subjectCol) := by
    rw [hP]
    simp only [Frame.setColumn]
    exact map_rowGet_zip_preserve c.groupCol c.subjectCol _ _ hvslen hsg
  have hnodup : ((c.permutation_subject_labels rng).1.rows.map
      (fun x => rowGet x c.subjectCol)).Nodup := by
    rw [hsubjeq]
    exact sl_subjects_nodup c hdep
  have hmemP : ∀ r ∈ c.data.rows, rowGet r c.subjectCol ∈
      (c.permutation_subject_labels rng).1.rows.map
        (fun x => rowGet x c.subjectCol) := by
    intro r hr
    rw [hsubjeq]
    rw [List.mem_map]
    refine ⟨[(c.subjectCol, rowGet r c.subjectCol),
      (c.groupCol, rowGet r c.groupCol)], select_row_mem_dedup c r hr, ?_⟩
    exact rowGet_structured_fst _ _ _ _
  have hmerge_rows : (c.get_shuffled_data
      (c.permutation_subject_labels rng).1).rows =
      c.data.rows.map (fun r =>
        (r.filter (fun p => p.1 ≠ c.groupCol)) ++
        ((lookupRow (c.permutation_subject_labels rng).1.rows c.subjectCol
          (rowGet r c.subjectCol)).filter (fun p => p.1 ≠ c.subjectCol))) := by
    unfold GroupComparator.get_shuffled_data Frame.merge
    simp only [Frame.dropCol]
    rw [flatMap_map_assoc]
    apply flatMap_eq_map_of_singleton
    intro r hr
    have hvr : rowGet (r.filter (fun p => p.1 ≠ c.groupCol)) c.subjectCol =
        rowGet r c.subjectCol := rowGet_filter_ne r c.subjectCol c.groupCol hsg
    obtain ⟨y, hfil, hfind, hyv⟩ := filter_key_singleton
      (c.permutation_subject_labels rng).1.rows c.subjectCol
      (rowGet r c.subjectCol) (hnan r hr) hnodup (hmemP r hr)
    have hlook : lookupRow (c.permutation_subject_labels rng).1.rows
        c.subjectCol (rowGet r c.subjectCol) = y := by
      unfold lookupRow
      rw [hfind]
      rfl
    rw [hvr, hfil, hlook]
    rfl
  refine ⟨?_, ?_, ?_⟩
  · rw [hmerge_rows]
    simp
  · rw [hmerge_rows, List.map_map]
    apply List.map_congr_left
    intro r hr
    show rowGet _ c.subjectCol = rowGet r c.subjectCol
    rw [rowGet_append_of_ne_nan]
    · exact rowGet_filter_ne r c.subjectCol c.groupCol hsg
    · rw [rowGet_filter_ne r c.subjectCol c.groupCol hsg]
      exact hnan r hr
  · rw [hmerge_rows, List.map_map]
    apply List.map_congr_left
    intro r hr
    show rowGet _ c.groupCol = _
    rw [rowGet_append_of_none _ _ _ (find?_key_filter_self r c.groupCol)]
    rw [rowGet_filter_ne _ c.groupCol c.subjectCol (Ne.symm hsg)]
    rfl

/-- Witness for C5 at the six-subject fixture: the subject-label
invariants hold at a concrete generator state. -/
theorem c5_subject_rows_move_together_witness :
    (sampleComparator.get_shuffled_data
        (sampleComparator.permutation_subject_labels ⟨9⟩).1).rows.length
      = sampleComparator.data.rows.length ∧
    (sampleComparator.get_shuffled_data
        (sampleComparator.permutation_subject_labels ⟨9⟩).1).rows.map
        (fun m => rowGet m sampleComparator.subjectCol)
      = sampleComparator.data.rows.map
        (fun r => rowGet r sampleComparator.subjectCol) ∧
    (sampleComparator.get_shuffled_data
        (sampleComparator.permutation_subject_labels ⟨9⟩).1).rows.map
        (fun m => rowGet m sampleComparator.groupCol)
      = sampleComparator.data.rows.map (fun r =>
          subjectLabelIn (sampleComparator.permutation_subject_labels ⟨9⟩).1
            sampleComparator.subjectCol sampleComparator.groupCol
            (rowGet r sampleComparator.subjectCol)) :=
  c5_subject_rows_move_together sampleComparator ⟨9⟩ (by decide) (by decide)
    (by decide)

/-- Every permuted labeling a run records is a draw of the permutation
engine at some generator state (bridging the run's label history to the
per-draw invariants proved above). -/
theorem rngIterate_mem_is_engine_draw (c : GroupComparator) (n : Nat)
    (r : RNG) (p : Frame) (hp : p ∈ c.rngIterate n r) :
    ∃ r0 : RNG, p = (c.permutation_subject_labels r0).1 := by
  induction n generalizing r with
  | zero => simp [GroupComparator.rngIterate] at hp
  | succ m ih =>
      rcases hps : c.permutation_subject_labels r with ⟨q, r1⟩
      rw [GroupComparator.rngIterate, hps] at hp
      rcases List.mem_cons.mp hp with h1 | h1
      · exact ⟨r, by rw [hps, h1]⟩
      · exact ih r1 h1
